import Mathlib

/-!
Verification of the ipwned-localdb builder pipeline against its
natural-language specification.  The Rust sources are shallowly embedded:
bytes are modelled as `Char` (the source operates on ASCII byte slices) or
`Nat`, fallible operations return `Option`/`Except`, and the two worker
loops (`work_parse`, `work_build`) become pure folds over their input
queues.  External crates (nom, faster_hex, qfilter, chrono, reqwest) are
modelled by executable Lean definitions that follow the documented
behaviour each call site relies on.
-/

namespace IPwned

/-! ## Byte/character predicates (nom `AsChar::is_hex_digit`, `is_dec_digit`)

Characters model the ASCII bytes of the source's `&[u8]` input. -/

/-- nom `AsChar::is_hex_digit` on a byte: `0-9`, `A-F`, `a-f`. -/
def isHexDigitB (c : Char) : Bool :=
  (48 ≤ c.toNat && c.toNat ≤ 57) || (65 ≤ c.toNat && c.toNat ≤ 70) ||
    (97 ≤ c.toNat && c.toNat ≤ 102)

/-- nom `is_dec_digit` / `digit1` character class: `0-9`. -/
def isDigitB (c : Char) : Bool :=
  48 ≤ c.toNat && c.toNat ≤ 57

/-- Value of one hex digit, as computed by `u8::from_str_radix(_, 16)` and by
the faster_hex decode table.  Non-hex input never reaches this function in
the source (`parse_hash` guarantees `[:xdigit:]`), the final branch is a
modelling default. -/
def hexVal (c : Char) : Nat :=
  if 48 ≤ c.toNat && c.toNat ≤ 57 then c.toNat - 48
  else if 97 ≤ c.toNat && c.toNat ≤ 102 then c.toNat - 87
  else if 65 ≤ c.toNat && c.toNat ≤ 70 then c.toNat - 55
  else 0

/-- Model of `faster_hex::hex_decode_unchecked` on a hex-digit slice: each
pair of hex digits becomes one big-endian byte; it writes `len / 2` output
bytes. -/
def hexDecodeUnchecked : List Char → List Nat
  | [] => []
  | [_] => []
  | a :: b :: rest => (hexVal a * 16 + hexVal b) :: hexDecodeUnchecked rest

/-! ## src/parse.rs

`parse_hash`, `parse_line`, `parse_file` with the nom combinators
`take_while_m_n`, `tag`, `digit1`, `line_ending`, `separated_list0`
specialised to this grammar.  A parser returns `none` on a nom `Error`
and otherwise `some (remaining_input, value)`. -/

/-- nom `take_while_m_n m n pred` (complete): consume at most `n` leading
characters satisfying `pred`; fail unless at least `m` were consumed. -/
def takeWhileMN (m n : Nat) (q : Char → Bool) (s : List Char) :
    Option (List Char × List Char) :=
  let t := (s.takeWhile q).take n
  if m ≤ t.length then some (s.drop t.length, t) else none

/-- nom `tag(":")`. -/
def tagColon (s : List Char) : Option (List Char) :=
  match s with
  | ':' :: rest => some rest
  | _ => none

/-- nom `digit1`: one or more decimal digits. -/
def digit1 (s : List Char) : Option (List Char × List Char) :=
  let t := s.takeWhile isDigitB
  if t.isEmpty then none else some (s.drop t.length, t)

/-- nom `line_ending`: `"\n"` or `"\r\n"`. -/
def lineEnding (s : List Char) : Option (List Char) :=
  match s with
  | '\n' :: rest => some rest
  | '\r' :: '\n' :: rest => some rest
  | _ => none

/-- `parse_hash` from src/parse.rs: exactly 35 hex digits. -/
def parseHash (s : List Char) : Option (List Char × List Char) :=
  takeWhileMN 35 35 isHexDigitB s

/-- `parse_line` from src/parse.rs: `separated_pair(parse_hash, tag(":"),
digit1)`, keeping the hash and discarding the count. -/
def parseLine (s : List Char) : Option (List Char × List Char) :=
  match parseHash s with
  | none => none
  | some (r1, hash) =>
    match tagColon r1 with
    | none => none
    | some r2 =>
      match digit1 r2 with
      | none => none
      | some (r3, _) => some (r3, hash)

/-- Iteration of nom `separated_list0(line_ending, parse_line)` after the
first element: repeatedly consume a separator and an element, stopping (and
backtracking over the separator) at the first failure.  `parse_line`
consumes at least 37 characters whenever it succeeds and `line_ending` at
least one, so `fuel` initialised to the input length is never exhausted. -/
def sepListAux (fuel : Nat) (s : List Char) (acc : List (List Char)) :
    List Char × List (List Char) :=
  match fuel with
  | 0 => (s, acc.reverse)
  | fuel + 1 =>
    match lineEnding s with
    | none => (s, acc.reverse)
    | some s1 =>
      match parseLine s1 with
      | none => (s, acc.reverse)
      | some (s2, h) => sepListAux fuel s2 (h :: acc)

/-- nom `separated_list0(line_ending, parse_line)`: returns the empty list
(without failing) if the first element does not parse. -/
def sepList0 (s : List Char) : List Char × List (List Char) :=
  match parseLine s with
  | none => (s, [])
  | some (s1, h) => sepListAux s1.length s1 (h :: [])

/-- Hash reconstruction done per line inside `parse_file`: a 20-byte vector
whose first two bytes are `put_u16((prefix >> 4) as u16)`, whose third byte
is `(prefix as u8) << 4` OR-ed with the value of the first suffix digit, and
whose remaining 17 bytes are `hex_decode_unchecked` of the other 34 digits.
The parser only produces 35-character lines, so the `[]` case is
unreachable. -/
def mkHash (pfx : Nat) (hex : List Char) : List Nat :=
  let b0 := ((pfx >>> 4) % 65536) / 256
  let b1 := ((pfx >>> 4) % 65536) % 256
  let b2 := ((pfx % 256) * 16) % 256
  match hex with
  | [] => [b0, b1, b2] ++ List.replicate 17 0
  | c :: rest =>
    let tail := hexDecodeUnchecked rest
    [b0, b1, Nat.lor b2 (hexVal c)] ++ tail ++ List.replicate (17 - tail.length) 0

/-- `parse_file` from src/parse.rs.  `separated_list0` cannot fail on this
grammar (its element parser only ever raises a recoverable nom `Error`), so
the result is always `some (remainder, hashes)`. -/
def parseFile (pfx : Nat) (s : List Char) : Option (List Char × List (List Nat)) :=
  let (rem, hexes) := sepList0 s
  some (rem, hexes.map (mkHash pfx))

/-! ## Specification-side reconstruction (for the C1 refinement claim)

These definitions follow the spec's words only: "the concatenation of the
5+35 hex digits, parsed as big-endian bytes, equals the 20-byte value",
with the shard id written as five uppercase hex digits. -/

/-- One uppercase hexadecimal digit. -/
def hexDigitUpper (d : Nat) : Char :=
  if d < 10 then Char.ofNat (48 + d) else Char.ofNat (55 + d)

/-- `uppercase_hex5(P)`: the canonical five-digit zero-padded uppercase hex
form of a shard id. -/
def uppercaseHex5 (p : Nat) : List Char :=
  [hexDigitUpper (p / 65536 % 16), hexDigitUpper (p / 4096 % 16),
   hexDigitUpper (p / 256 % 16), hexDigitUpper (p / 16 % 16),
   hexDigitUpper (p % 16)]

/-- Big-endian byte interpretation of a hex-digit string, as the spec words
it: consecutive pairs of hex digits become bytes. -/
def hexBytesSpec : List Char → List Nat
  | [] => []
  | [_] => []
  | a :: b :: rest => (hexVal a * 16 + hexVal b) :: hexBytesSpec rest

/-! ## Helper lemmas about the parser -/

theorem takeWhile_append_of_all {q : Char → Bool} {S l : List Char}
    (h : ∀ c ∈ S, q c = true) :
    (S ++ l).takeWhile q = S ++ l.takeWhile q := by
  induction S with
  | nil => simp
  | cons a t ih =>
    have ha := h a (by simp)
    have iht := ih (fun c hc => h c (by simp [hc]))
    simp [List.takeWhile_cons, ha, iht]

theorem takeWhile_of_all {q : Char → Bool} {l : List Char}
    (h : ∀ c ∈ l, q c = true) : l.takeWhile q = l := by
  have := takeWhile_append_of_all (l := []) h
  simpa using this

theorem parseLine_single (S cnt : List Char)
    (hlen : S.length = 35) (hhex : ∀ c ∈ S, isHexDigitB c = true)
    (hcne : cnt ≠ []) (hcdig : ∀ c ∈ cnt, isDigitB c = true) :
    parseLine (S ++ ':' :: cnt) = some ([], S) := by
  have hcolon : isHexDigitB ':' = false := by decide
  have htw : (S ++ ':' :: cnt).takeWhile isHexDigitB = S := by
    rw [takeWhile_append_of_all hhex]
    simp [List.takeWhile_cons, hcolon]
  have hhash : parseHash (S ++ ':' :: cnt) = some (':' :: cnt, S) := by
    unfold parseHash takeWhileMN
    rw [htw]
    rw [show S.take 35 = S from by rw [← hlen, List.take_length]]
    rw [if_pos (by omega)]
    rw [List.drop_left]
  have hdig : digit1 cnt = some ([], cnt) := by
    unfold digit1
    rw [takeWhile_of_all hcdig]
    rw [if_neg (by simpa [List.isEmpty_iff] using hcne)]
    rw [List.drop_length]
  unfold parseLine
  rw [hhash]
  simp [tagColon, hdig]

theorem parseFile_single (pfx : Nat) (S cnt : List Char)
    (hlen : S.length = 35) (hhex : ∀ c ∈ S, isHexDigitB c = true)
    (hcne : cnt ≠ []) (hcdig : ∀ c ∈ cnt, isDigitB c = true) :
    parseFile pfx (S ++ ':' :: cnt) = some ([], [mkHash pfx S]) := by
  unfold parseFile sepList0
  rw [parseLine_single S cnt hlen hhex hcne hcdig]
  rfl

/-! ## Numeric lemmas for the reconstruction -/

theorem hexVal_lt_sixteen (c : Char) : hexVal c < 16 := by
  unfold hexVal
  split
  · rename_i h
    simp only [Bool.and_eq_true, decide_eq_true_eq] at h
    omega
  · split
    · rename_i h
      simp only [Bool.and_eq_true, decide_eq_true_eq] at h
      omega
    · split
      · rename_i h
        simp only [Bool.and_eq_true, decide_eq_true_eq] at h
        omega
      · omega

theorem hexVal_hexDigitUpper (d : Nat) (hd : d < 16) :
    hexVal (hexDigitUpper d) = d := by
  interval_cases d <;> decide

theorem lor_mul_sixteen : ∀ x, x < 16 → ∀ y, y < 16 →
    Nat.lor (x * 16) y = x * 16 + y := by decide

theorem hexDecodeUnchecked_length :
    ∀ l : List Char, (hexDecodeUnchecked l).length = l.length / 2
  | [] => rfl
  | [_] => by simp [hexDecodeUnchecked]
  | _ :: _ :: rest => by
    simp only [hexDecodeUnchecked, List.length_cons,
      hexDecodeUnchecked_length rest]
    omega

theorem hexBytesSpec_eq_decode :
    ∀ l : List Char, hexBytesSpec l = hexDecodeUnchecked l
  | [] => rfl
  | [_] => rfl
  | _ :: _ :: rest => by
    simp only [hexBytesSpec, hexDecodeUnchecked, hexBytesSpec_eq_decode rest]

theorem mkHash_eq_hexBytesSpec (pfx : Nat) (S : List Char)
    (hp : pfx ≤ 1048575) (hlen : S.length = 35) :
    mkHash pfx S = hexBytesSpec (uppercaseHex5 pfx ++ S) := by
  obtain ⟨c, rest, rfl⟩ : ∃ c rest, S = c :: rest := by
    cases S with
    | nil => simp at hlen
    | cons a t => exact ⟨a, t, rfl⟩
  have hr : rest.length = 34 := by simpa using hlen
  have hdec : (hexDecodeUnchecked rest).length = 17 := by
    rw [hexDecodeUnchecked_length, hr]
  unfold mkHash uppercaseHex5
  simp only [List.cons_append, List.nil_append]
  rw [hexBytesSpec, hexBytesSpec, hexBytesSpec]
  rw [hexBytesSpec_eq_decode rest]
  rw [show (17 - (hexDecodeUnchecked rest).length) = 0 from by omega]
  rw [hexVal_hexDigitUpper _ (by omega), hexVal_hexDigitUpper _ (by omega),
    hexVal_hexDigitUpper _ (by omega), hexVal_hexDigitUpper _ (by omega),
    hexVal_hexDigitUpper _ (by omega)]
  rw [Nat.shiftRight_eq_div_pow, show (2 : Nat) ^ 4 = 16 from by norm_num]
  rw [show ((pfx % 256) * 16) % 256 = (pfx % 16) * 16 from by omega]
  rw [lor_mul_sixteen (pfx % 16) (by omega) (hexVal c) (hexVal_lt_sixteen c)]
  simp only [List.replicate, List.append_nil]
  refine List.ext_getElem (by simp) ?_ |>.symm
  intro i h1 h2
  match i with
  | 0 => simp; omega
  | 1 => simp; omega
  | 2 => simp
  | (n + 3) => simp

/-- C1: for every shard-id `P ∈ [0, 0xFFFFF]` and every body line made of a
35-hex-digit suffix `S` (either case) followed by `:` and a decimal count,
`parse_file(P, body)` produces a single 20-byte hash equal to the big-endian
byte interpretation of the 40 hex digits `uppercase_hex5(P) ++ S`; in
particular byte 2 of the output carries the low nibble of `P` in its high
nibble and the value of the first hex digit of `S` in its low nibble. -/
theorem c1_parse_reconstruction (pfx : Nat) (S cnt : List Char)
    (hp : pfx ≤ 1048575) (hlen : S.length = 35)
    (hhex : ∀ c ∈ S, isHexDigitB c = true)
    (hcne : cnt ≠ []) (hcdig : ∀ c ∈ cnt, isDigitB c = true) :
    parseFile pfx (S ++ ':' :: cnt)
        = some ([], [hexBytesSpec (uppercaseHex5 pfx ++ S)])
    ∧ (hexBytesSpec (uppercaseHex5 pfx ++ S)).length = 20
    ∧ (hexBytesSpec (uppercaseHex5 pfx ++ S))[2]?
        = some ((pfx % 16) * 16 + hexVal (S.headD '0')) := by
  have hmk := mkHash_eq_hexBytesSpec pfx S hp hlen
  obtain ⟨c, rest, rfl⟩ : ∃ c rest, S = c :: rest := by
    cases S with
    | nil => simp at hlen
    | cons a t => exact ⟨a, t, rfl⟩
  have hr : rest.length = 34 := by simpa using hlen
  have hdec : (hexDecodeUnchecked rest).length = 17 := by
    rw [hexDecodeUnchecked_length, hr]
  refine ⟨?_, ?_, ?_⟩
  · rw [parseFile_single pfx (c :: rest) cnt hlen hhex hcne hcdig, hmk]
  · rw [← hmk]
    unfold mkHash
    simp [hdec]
  · rw [← hmk]
    unfold mkHash
    simp
    rw [show pfx * 16 % 256 = (pfx % 16) * 16 from by omega,
      lor_mul_sixteen (pfx % 16) (by omega) (hexVal c) (hexVal_lt_sixteen c)]

/-- Witness for C1 at shard id 0x0ABCD with a suffix starting with digit 1;
the reconstructed hash begins with bytes 0A BC D1. -/
theorem c1_parse_reconstruction_witness :
    (parseFile 43981 (('1' :: List.replicate 34 'A') ++ ':' :: ['7'])
        = some ([], [hexBytesSpec (uppercaseHex5 43981 ++ ('1' :: List.replicate 34 'A'))])
      ∧ (hexBytesSpec (uppercaseHex5 43981 ++ ('1' :: List.replicate 34 'A'))).length = 20
      ∧ (hexBytesSpec (uppercaseHex5 43981 ++ ('1' :: List.replicate 34 'A')))[2]?
          = some ((43981 % 16) * 16 + hexVal (('1' :: List.replicate 34 'A').headD '0')))
    ∧ (hexBytesSpec (uppercaseHex5 43981 ++ ('1' :: List.replicate 34 'A'))).take 3
        = [10, 188, 209] :=
  ⟨c1_parse_reconstruction 43981 ('1' :: List.replicate 34 'A') ['7']
      (by decide) (by decide) (by decide) (by decide) (by decide),
   by decide⟩

/-! ## src/filter_builder.rs

The two worker loops become pure folds over the sequence of messages each
would receive from its input queue before the close sentinel.  `Bytes`
payloads are `List Char` (raw bodies) or `List Nat` (packed hashes). -/

/-- `HashList` from src/filter_builder.rs. -/
structure HashListM where
  id : Nat
  data : List Char
  etag : Option String
deriving DecidableEq

/-- `ParseResult` from src/filter_builder.rs. -/
structure ParseResultM where
  id : Nat
  hashes : List (List Nat)
  etag : Option String
deriving DecidableEq

/-- `FilterResult` from src/filter_builder.rs. -/
structure FilterResult where
  id : Nat
  total : Nat
  added : Nat
  etag : Option String
deriving DecidableEq

/-- One iteration of `work_parse` on a received `HashList`: parse, skip the
shard if parsing failed (it cannot on this grammar), otherwise emit a
`ParseResult`.  A remainder longer than 2 bytes only produces a warning. -/
def workParse1 (l : HashListM) : Option ParseResultM :=
  match parseFile l.id l.data with
  | none => none
  | some (_, hashes) => some ⟨l.id, hashes, l.etag⟩

/-- Model of `qfilter::Filter`: an exact membership set with a capacity.
`insert` returns newly-added / already-present, or a capacity error once
`cap` distinct elements are stored (the `Saturated` outcome). -/
structure MFilter where
  elems : List (List Nat)
  cap : Nat
deriving DecidableEq

/-- Outcome of one `filter.insert` call: `Ok(true)`, `Ok(false)`, `Err(_)`. -/
inductive InsOutcome where
  | newlyAdded
  | alreadyPresent
  | saturated
deriving DecidableEq

/-- Model of `qfilter::Filter::insert`. -/
def mfInsert (f : MFilter) (h : List Nat) : MFilter × InsOutcome :=
  if f.elems.contains h then (f, InsOutcome.alreadyPresent)
  else if f.elems.length < f.cap then (⟨h :: f.elems, f.cap⟩, InsOutcome.newlyAdded)
  else (f, InsOutcome.saturated)

/-- Result of the inner `for hash in &parsed.hashes` loop of `work_build`. -/
structure InsLoopOut where
  filter : MFilter
  added : Nat
  sat : Bool
  outcomes : List InsOutcome
deriving DecidableEq

/-- The inner insertion loop of `work_build`: count `Ok(true)` outcomes in
`added`; an `Err` aborts the loop immediately (`break 'mainloop`), leaving
the remaining hashes of the shard uninserted. -/
def insertLoop (f : MFilter) : List (List Nat) → Nat → InsLoopOut
  | [], added => ⟨f, added, false, []⟩
  | h :: rest, added =>
    match mfInsert f h with
    | (f', InsOutcome.newlyAdded) =>
      let r := insertLoop f' rest (added + 1)
      ⟨r.filter, r.added, r.sat, InsOutcome.newlyAdded :: r.outcomes⟩
    | (f', InsOutcome.alreadyPresent) =>
      let r := insertLoop f' rest added
      ⟨r.filter, r.added, r.sat, InsOutcome.alreadyPresent :: r.outcomes⟩
    | (f', InsOutcome.saturated) => ⟨f', added, true, [InsOutcome.saturated]⟩

/-- Observable outcome of a whole `work_build` run: the `FilterResult`s sent
downstream, the final filter, the `changed` flag, whether the run aborted on
saturation, and every `insert` outcome in order. -/
structure BuildRun where
  results : List FilterResult
  filter : MFilter
  changed : Bool
  saturated : Bool
  outcomes : List InsOutcome
deriving DecidableEq

/-- The `'mainloop` of `work_build` over the `ParseResult`s received before
the close sentinel.  On saturation (`Err(_)` from `insert`) the loop is left
at once: no `FilterResult` is emitted for the saturating shard, `changed` is
not updated for it, and no further input is consumed. -/
def workBuildGo (f : MFilter) (changed : Bool) : List ParseResultM → BuildRun
  | [] => ⟨[], f, changed, false, []⟩
  | p :: rest =>
    match insertLoop f p.hashes 0 with
    | ⟨f', _, true, os⟩ => ⟨[], f', changed, true, os⟩
    | ⟨f', added, false, os⟩ =>
      let r := workBuildGo f' (changed || decide (0 < added)) rest
      ⟨⟨p.id, p.hashes.length, added, p.etag⟩ :: r.results,
        r.filter, r.changed, r.saturated, os ++ r.outcomes⟩

/-- `work_build` starts with `changed = false`. -/
def workBuild (inputs : List ParseResultM) (f : MFilter) : BuildRun :=
  workBuildGo f false inputs

/-- The two files the persistence epilogue touches: `<filter_path>.new` and
`<filter_path>`. -/
inductive FPath where
  | tmpNew
  | filterFile
deriving DecidableEq

/-- A file-system operation attempted by the persistence epilogue, with the
path it writes to. -/
inductive FileOp where
  | create (target : FPath)
  | serialize (target : FPath)
  | rename (src : FPath) (dst : FPath)
deriving DecidableEq

/-- The path a file operation writes to (`rename` writes its destination). -/
def writesTo : FileOp → FPath
  | FileOp.create t => t
  | FileOp.serialize t => t
  | FileOp.rename _ d => d

/-- The `'write` block of `work_build`: create `<filter_path>.new`, stop on
failure; serialize the filter into it, stop on failure; only then rename it
over `<filter_path>`. -/
def persistAttempt (createOk serializeOk : Bool) : List FileOp :=
  if createOk = false then [FileOp.create FPath.tmpNew]
  else if serializeOk = false then
    [FileOp.create FPath.tmpNew, FileOp.serialize FPath.tmpNew]
  else
    [FileOp.create FPath.tmpNew, FileOp.serialize FPath.tmpNew,
      FileOp.rename FPath.tmpNew FPath.filterFile]

/-- File operations of a whole `work_build` run: the `'write` block runs
exactly when `changed` is set. -/
def runFileOps (r : BuildRun) (createOk serializeOk : Bool) : List FileOp :=
  if r.changed then persistAttempt createOk serializeOk else []

/-! ## src/misc.rs -/

/-- `DownloadError` from src/misc.rs: an optional HTTP status; `none` is
reported as a connection error. -/
structure DLError where
  status_code : Option Nat
deriving DecidableEq

/-- `DownloadStatus` from src/misc.rs. -/
inductive DownloadStatus where
  | skipped
  | notOutdated
  | internalError
  | httpError (err : DLError)
deriving DecidableEq

/-! ## src/statedb.rs and the coordinator in src/bin/ipwned-builder.rs -/

/-- A stored state record (`State` from src/statedb.rs, minus the redundant
id). -/
structure StateRec where
  etag : Option String
  last_update : String
deriving DecidableEq

/-- The state database content: shard id to record. -/
def StateDb : Type := Nat → Option StateRec

/-- The `Status` counters of src/bin/ipwned-builder.rs. -/
structure Status where
  total : Nat
  skipped : Nat
  downloaded : Nat
  downloaded_bytes : Nat
  hashes : Nat
  hashes_new : Nat
  error : Nat
  processed : Nat
deriving DecidableEq

/-- Externally visible effects of one coordinator event handler: an upsert
into the state store (`state_db.update(id, etag)`) or sending the close
sentinel into the pipeline. -/
inductive Effect where
  | dbUpdate (id : Nat) (etag : Option String)
  | sendClose
deriving DecidableEq

/-- `handle_download_status` from src/bin/ipwned-builder.rs: bump the
counters for the outcome and, once `processed == total`, send the close
sentinel.  It never touches the state store. -/
def handleDownloadStatus (res : Except DownloadStatus Nat) (st : Status) :
    Status × List Effect :=
  let st1 := { st with processed := st.processed + 1 }
  let st2 :=
    match res with
    | Except.ok size =>
      { st1 with downloaded := st1.downloaded + 1,
                 downloaded_bytes := st1.downloaded_bytes + size }
    | Except.error DownloadStatus.skipped => { st1 with skipped := st1.skipped + 1 }
    | Except.error DownloadStatus.notOutdated => { st1 with skipped := st1.skipped + 1 }
    | Except.error _ => { st1 with error := st1.error + 1 }
  (st2, if st2.processed = st2.total then [Effect.sendClose] else [])

/-- `handle_result` from src/bin/ipwned-builder.rs: bump the hash counters
and upsert the state record for the finished shard. -/
def handleResult (r : FilterResult) (st : Status) : Status × List Effect :=
  ({ st with hashes := st.hashes + r.total, hashes_new := st.hashes_new + r.added },
   [Effect.dbUpdate r.id r.etag])

/-- `StateDatabase::update` (src/statedb.rs): upsert of `(id, etag)` with
`last_update = CURRENT_TIMESTAMP`. -/
def applyEffect (db : StateDb) (now : String) : Effect → StateDb
  | Effect.dbUpdate id etag => fun i => if i = id then some ⟨etag, now⟩ else db i
  | Effect.sendClose => db

/-- Apply a handler's effects to the state database in order. -/
def applyEffects (db : StateDb) (now : String) : List Effect → StateDb
  | [] => db
  | e :: rest => applyEffects (applyEffect db now e) now rest

/-! ## `check_db_state` / `schedule_download` (src/bin/ipwned-builder.rs)

Timestamps: chrono datetimes are modelled as the `Nat` returned by
`parseDatetime`, a strictly monotone encoding of the parsed calendar
fields, so chronological comparison of valid datetimes is `<` on the
encoding. -/

/-- Two decimal digits. -/
def parse2dig : List Char → Option (Nat × List Char)
  | a :: b :: rest =>
    if isDigitB a && isDigitB b then
      some ((a.toNat - 48) * 10 + (b.toNat - 48), rest)
    else none
  | _ => none

/-- Expect one literal character. -/
def expectChar (c : Char) : List Char → Option (List Char)
  | x :: rest => if x = c then some rest else none
  | [] => none

/-- Model of `chrono::NaiveDateTime::parse_from_str(s, "%Y-%m-%d %H:%M:%S")`:
digits, `-`, zero-padded month, `-`, day, space, hour, `:`, minute, `:`,
second, end of input, with the calendar fields range-checked; the result is
a strictly monotone integer encoding of the datetime. -/
def parseDatetimeL (l : List Char) : Option Nat := do
  let yd := l.takeWhile isDigitB
  if yd.isEmpty then none else
    let y := yd.foldl (fun a c => a * 10 + (c.toNat - 48)) 0
    let r ← expectChar '-' (l.drop yd.length)
    let (mo, r) ← parse2dig r
    if 1 ≤ mo ∧ mo ≤ 12 then
      let r ← expectChar '-' r
      let (d, r) ← parse2dig r
      if 1 ≤ d ∧ d ≤ 31 then
        let r ← expectChar ' ' r
        let (h, r) ← parse2dig r
        if h ≤ 23 then
          let r ← expectChar ':' r
          let (mi, r) ← parse2dig r
          if mi ≤ 59 then
            let r ← expectChar ':' r
            let (s, r) ← parse2dig r
            if s ≤ 59 ∧ r = [] then
              some (((((y * 12 + (mo - 1)) * 31 + (d - 1)) * 24 + h) * 60 + mi) * 60 + s)
            else none
          else none
        else none
      else none
    else none

/-- `parseDatetimeL` on the characters of a string. -/
def parseDatetime (s : String) : Option Nat :=
  parseDatetimeL s.data

/-- `check_db_state` from src/bin/ipwned-builder.rs: `need_update` defaults
to `true`; only a fetch that succeeded with a record whose `last_update`
parses can clear it, via the strict comparison `max_age > time`; the
record's ETag, when present, is forwarded regardless. -/
def check_db_state (maxAge : Nat) (state : Except Unit (Option StateRec)) :
    Bool × Option String :=
  match state with
  | Except.error _ => (true, none)
  | Except.ok none => (true, none)
  | Except.ok (some r) =>
    let need :=
      match parseDatetime r.last_update with
      | some t => decide (t < maxAge)
      | none => true
    (need, r.etag)

/-- What the scheduler decides for one shard: skip, or fetch a URL with the
given request headers. -/
inductive SchedAction where
  | skipped
  | fetch (url : String) (headers : List (String × String))
deriving DecidableEq

/-- Header attachment in `download_remote_hashlist` (src/downloader.rs): an
`If-None-Match` header exactly when an ETag is passed in. -/
def requestHeaders (etag : Option String) : List (String × String) :=
  match etag with
  | some e => [("If-None-Match", e)]
  | none => []

/-- `format!("{:0>5X}", hash_list_id)` for ids within `MAX_COUNT`. -/
def hex5String (id : Nat) : String :=
  String.mk (uppercaseHex5 id)

/-- The decision part of `schedule_download` (src/bin/ipwned-builder.rs):
consult `check_db_state`; if no update is needed the outcome is `Skipped`
and no fetch happens; otherwise a GET of `base_url ++ hex5(id)` is issued
carrying the forwarded ETag as `If-None-Match`. -/
def scheduleDownload (id : Nat) (maxAge : Nat)
    (state : Except Unit (Option StateRec)) (baseUrl : String) : SchedAction :=
  let (need, etag) := check_db_state maxAge state
  if need then SchedAction.fetch (baseUrl ++ hex5String id) (requestHeaders etag)
  else SchedAction.skipped

/-! ## src/downloader.rs -/

/-- `DownloadResult` from src/downloader.rs. -/
structure DLResult where
  data : List Nat
  etag : Option String
deriving DecidableEq

/-- Everything observable about one `download_retry` call: the returned
value, how many times `download_remote_hashlist` was invoked, and the
sleeps performed between attempts (in milliseconds). -/
structure RetryTrace where
  result : Except DLError DLResult
  attempts : Nat
  sleepsMs : List Nat

/-- An attempt outcome that makes `download_retry` return immediately:
success, or an error whose `status_code.unwrap_or(0)` is 304. -/
def isStop : Except DLError DLResult → Bool
  | Except.ok _ => true
  | Except.error e => e.status_code.getD 0 == 304

/-- The `for i in 0..max_retries` loop of `download_retry`, with the network
abstracted as an oracle from attempt index to outcome.  `fuel` is
`max - i` at every call, so the `0` case is only reached when the loop body
never runs (`max_retries = 0`) and then yields the initial
`Err(DownloadError { status_code: None })`. -/
def retryAux (oracle : Nat → Except DLError DLResult) (max : Nat) :
    Nat → Nat → Nat → List Nat → RetryTrace
  | 0, i, _, sleeps => ⟨Except.error ⟨none⟩, i, sleeps.reverse⟩
  | fuel + 1, i, timeoutMs, sleeps =>
    if isStop (oracle i) then ⟨oracle i, i + 1, sleeps.reverse⟩
    else if i + 1 < max then
      retryAux oracle max fuel (i + 1) (timeoutMs * 2) (timeoutMs :: sleeps)
    else ⟨oracle i, i + 1, sleeps.reverse⟩

/-- `download_retry` from src/downloader.rs: up to `max` attempts starting
from the 500 ms timeout (`0.5` seconds, doubled after each retried
failure; powers of two scaled by 500 are exact in `f32` for every feasible
retry count, so milliseconds as `Nat` are a faithful model). -/
def downloadRetry (oracle : Nat → Except DLError DLResult) (max : Nat) :
    RetryTrace :=
  retryAux oracle max max 0 500 []

/-! ## Claims C2 to C5: parser failure behaviour and filter persistence -/

theorem parseFile_unparseable (pfx : Nat) (body : List Char)
    (hbad : parseLine body = none) :
    parseFile pfx body = some (body, []) := by
  unfold parseFile sepList0
  rw [hbad]
  rfl

/-- C2 is false on the code; this closed counterexample evaluates the parser
stage on the totally unparseable body "zz": a `ParseResult` (with zero
hashes) IS emitted rather than the shard being skipped. -/
theorem c2_counterexample :
    workParse1 ⟨0, ['z', 'z'], none⟩ = some ⟨0, [], none⟩ := by decide

/-- C2 (amended): nom's `separated_list0` cannot fail on this grammar, so a
totally unparseable `HashList` body parses as an empty hash list (with the
whole body as unparsed remainder, which is only logged); the parser stage
emits a `ParseResult` with zero hashes, the builder emits a `FilterResult`
with `total = 0, added = 0` without touching the filter, and the
coordinator issues a state-store update for the shard. -/
theorem c2_unparseable_body_flows_through (l : HashListM) (f : MFilter)
    (st : Status) (hbad : parseLine l.data = none) :
    workParse1 l = some ⟨l.id, [], l.etag⟩
    ∧ workBuild [⟨l.id, [], l.etag⟩] f
        = ⟨[⟨l.id, 0, 0, l.etag⟩], f, false, false, []⟩
    ∧ (handleResult ⟨l.id, 0, 0, l.etag⟩ st).2 = [Effect.dbUpdate l.id l.etag] := by
  refine ⟨?_, rfl, rfl⟩
  unfold workParse1
  rw [parseFile_unparseable l.id l.data hbad]

/-- Witness for C2's amended statement on a concrete unparseable body. -/
theorem c2_unparseable_body_flows_through_witness :
    workParse1 ⟨5, ['x'], some "W"⟩ = some ⟨5, [], some "W"⟩
    ∧ workBuild [⟨5, [], some "W"⟩] ⟨[], 10⟩
        = ⟨[⟨5, 0, 0, some "W"⟩], ⟨[], 10⟩, false, false, []⟩
    ∧ (handleResult ⟨5, 0, 0, some "W"⟩ ⟨8, 0, 0, 0, 0, 0, 0, 0⟩).2
        = [Effect.dbUpdate 5 (some "W")] :=
  c2_unparseable_body_flows_through ⟨5, ['x'], some "W"⟩ ⟨[], 10⟩
    ⟨8, 0, 0, 0, 0, 0, 0, 0⟩ (by decide)

theorem workBuildGo_saturated_append :
    ∀ (inputs : List ParseResultM) (f : MFilter) (c : Bool)
      (extra : List ParseResultM),
      (workBuildGo f c inputs).saturated = true →
      workBuildGo f c (inputs ++ extra) = workBuildGo f c inputs := by
  intro inputs
  induction inputs with
  | nil =>
    intro f c extra h
    simp [workBuildGo] at h
  | cons p rest ih =>
    intro f c extra h
    rcases hin : insertLoop f p.hashes 0 with ⟨f', added, sat, os⟩
    cases sat with
    | true => simp only [List.cons_append, workBuildGo, hin]
    | false =>
      simp only [workBuildGo, hin] at h ⊢
      rw [List.append_eq, ih f' (c || decide (0 < added)) extra h]

/-- C3 is false on the code as far as "no new filter file is written on the
saturation path" goes: with filter capacity 1, shard 1 newly adds a hash
(setting `changed`), shard 2 saturates, and the epilogue still creates,
serializes and renames a new filter file over the old one. -/
theorem c3_counterexample :
    (workBuild [⟨1, [[1]], none⟩, ⟨2, [[2]], none⟩] ⟨[], 1⟩).saturated = true
    ∧ runFileOps (workBuild [⟨1, [[1]], none⟩, ⟨2, [[2]], none⟩] ⟨[], 1⟩) true true
        = [FileOp.create FPath.tmpNew, FileOp.serialize FPath.tmpNew,
           FileOp.rename FPath.tmpNew FPath.filterFile] := by decide

/-- C3 (amended): when `filter.insert` returns `Saturated` the builder
worker stops consuming input (any further queued `ParseResult`s are
ignored, and no `FilterResult` is emitted for the saturating shard); it
then runs the ordinary persistence epilogue, so if an earlier insertion in
the run had returned Newly Added (`changed` set) a new filter file IS
written, replacing the prior one, and only if nothing had been newly added
is the prior filter file left untouched. -/
theorem c3_saturation_stops_consuming (inputs extra : List ParseResultM)
    (f : MFilter) (createOk serializeOk : Bool)
    (hsat : (workBuild inputs f).saturated = true) :
    workBuild (inputs ++ extra) f = workBuild inputs f
    ∧ ((workBuild inputs f).changed = true →
        runFileOps (workBuild inputs f) true true
          = [FileOp.create FPath.tmpNew, FileOp.serialize FPath.tmpNew,
             FileOp.rename FPath.tmpNew FPath.filterFile])
    ∧ ((workBuild inputs f).changed = false →
        runFileOps (workBuild inputs f) createOk serializeOk = []) := by
  refine ⟨workBuildGo_saturated_append inputs f false extra hsat, ?_, ?_⟩
  · intro h
    simp [runFileOps, h, persistAttempt]
  · intro h
    simp [runFileOps, h]

/-- Witness for C3's amended statement: capacity-1 filter, saturation on the
second shard after the first set `changed`. -/
theorem c3_saturation_stops_consuming_witness :
    workBuild ([⟨1, [[1]], none⟩, ⟨2, [[2]], none⟩] ++ [⟨3, [[3]], none⟩]) ⟨[], 1⟩
      = workBuild [⟨1, [[1]], none⟩, ⟨2, [[2]], none⟩] ⟨[], 1⟩
    ∧ ((workBuild [⟨1, [[1]], none⟩, ⟨2, [[2]], none⟩] ⟨[], 1⟩).changed = true →
        runFileOps (workBuild [⟨1, [[1]], none⟩, ⟨2, [[2]], none⟩] ⟨[], 1⟩) true true
          = [FileOp.create FPath.tmpNew, FileOp.serialize FPath.tmpNew,
             FileOp.rename FPath.tmpNew FPath.filterFile])
    ∧ ((workBuild [⟨1, [[1]], none⟩, ⟨2, [[2]], none⟩] ⟨[], 1⟩).changed = false →
        runFileOps (workBuild [⟨1, [[1]], none⟩, ⟨2, [[2]], none⟩] ⟨[], 1⟩) true true = []) :=
  c3_saturation_stops_consuming [⟨1, [[1]], none⟩, ⟨2, [[2]], none⟩]
    [⟨3, [[3]], none⟩] ⟨[], 1⟩ true true (by decide)

theorem insertLoop_newlyAdded_mem :
    ∀ (hs : List (List Nat)) (f : MFilter) (acc : Nat),
      acc < (insertLoop f hs acc).added →
      InsOutcome.newlyAdded ∈ (insertLoop f hs acc).outcomes := by
  intro hs
  induction hs with
  | nil =>
    intro f acc h
    simp [insertLoop] at h
  | cons h rest ih =>
    intro f acc hlt
    rcases hmf : mfInsert f h with ⟨f', o⟩
    cases o with
    | newlyAdded => simp [insertLoop, hmf]
    | alreadyPresent =>
      simp only [insertLoop, hmf] at hlt ⊢
      simp only [List.mem_cons]
      exact Or.inr (ih f' acc hlt)
    | saturated =>
      simp only [insertLoop, hmf] at hlt
      omega

theorem workBuildGo_changed :
    ∀ (inputs : List ParseResultM) (f : MFilter) (c : Bool),
      (workBuildGo f c inputs).changed = true →
      c = true ∨ InsOutcome.newlyAdded ∈ (workBuildGo f c inputs).outcomes := by
  intro inputs
  induction inputs with
  | nil =>
    intro f c h
    simp only [workBuildGo] at h ⊢
    exact Or.inl h
  | cons p rest ih =>
    intro f c h
    rcases hin : insertLoop f p.hashes 0 with ⟨f', added, sat, os⟩
    cases sat with
    | true =>
      simp only [workBuildGo, hin] at h ⊢
      exact Or.inl h
    | false =>
      simp only [workBuildGo, hin] at h ⊢
      rcases ih f' (c || decide (0 < added)) h with hc | hmem
      · rcases Bool.or_eq_true_iff.mp hc with hc' | hadd
        · exact Or.inl hc'
        · have : 0 < added := of_decide_eq_true hadd
          have hmem0 : InsOutcome.newlyAdded ∈ (insertLoop f p.hashes 0).outcomes :=
            insertLoop_newlyAdded_mem p.hashes f 0 (by rw [hin]; simpa using this)
          rw [hin] at hmem0
          exact Or.inr (List.mem_append.mpr (Or.inl hmem0))
      · exact Or.inr (List.mem_append.mpr (Or.inr hmem))

/-- C4: if no `filter.insert` call of the run returns Newly Added, the
`changed` flag is never set and the persistence epilogue is skipped
entirely: no `<filter_path>.new` is created and `<filter_path>` is not
replaced. -/
theorem c4_dirty_only_write (inputs : List ParseResultM) (f : MFilter)
    (createOk serializeOk : Bool)
    (h : InsOutcome.newlyAdded ∉ (workBuild inputs f).outcomes) :
    runFileOps (workBuild inputs f) createOk serializeOk = [] := by
  have hc : (workBuild inputs f).changed = false := by
    rcases Bool.eq_false_or_eq_true (workBuild inputs f).changed with hc | hc
    · rcases workBuildGo_changed inputs f false (by simpa [workBuild] using hc)
        with hfa | hmem
      · exact absurd hfa (by simp)
      · exact absurd hmem (by simpa [workBuild] using h)
    · exact hc
  simp [runFileOps, hc]

/-- Witness for C4: a shard whose only hash is already present adds
nothing, and no file operation is attempted. -/
theorem c4_dirty_only_write_witness :
    runFileOps (workBuild [⟨1, [[1]], none⟩] ⟨[[1]], 5⟩) true true = [] :=
  c4_dirty_only_write [⟨1, [[1]], none⟩] ⟨[[1]], 5⟩ true true (by decide)

/-- C5: in the persistence epilogue, if creating or serializing into
`<filter_path>.new` fails, the rename is never attempted and nothing at
all writes to `<filter_path>`; and among the operations the epilogue can
attempt, the final rename is the only one whose destination is
`<filter_path>`. -/
theorem c5_persist_protocol (createOk serializeOk : Bool) :
    ((createOk = false ∨ serializeOk = false) →
      FileOp.rename FPath.tmpNew FPath.filterFile ∉ persistAttempt createOk serializeOk
      ∧ ∀ op ∈ persistAttempt createOk serializeOk, writesTo op ≠ FPath.filterFile)
    ∧ (∀ op ∈ persistAttempt createOk serializeOk,
        writesTo op = FPath.filterFile →
          op = FileOp.rename FPath.tmpNew FPath.filterFile) := by
  cases createOk <;> cases serializeOk <;> decide

/-- Witness for C5 with a failing create. -/
theorem c5_persist_protocol_witness :
    FileOp.rename FPath.tmpNew FPath.filterFile ∉ persistAttempt false true
    ∧ ∀ op ∈ persistAttempt false true, writesTo op ≠ FPath.filterFile :=
  (c5_persist_protocol false true).1 (Or.inl rfl)

/-! ## Claims C6, C7, C10: coordinator and scheduler -/

/-- C6: the coordinator's scheduler-outcome handler emits no state-store
effect at all (at most the close sentinel), so for `Skipped`, `NotOutdated`
and `HttpError` outcomes the state database is left pointwise unchanged;
the state store is updated exactly when a `FilterResult` is received, and
then with that shard's id and ETag. -/
theorem c6_state_update_only_on_filter_result
    (res : Except DownloadStatus Nat) (st : Status) (r : FilterResult)
    (db : StateDb) (now : String) :
    ((handleDownloadStatus res st).2 = []
      ∨ (handleDownloadStatus res st).2 = [Effect.sendClose])
    ∧ applyEffects db now (handleDownloadStatus res st).2 = db
    ∧ (handleResult r st).2 = [Effect.dbUpdate r.id r.etag] := by
  have heff : (handleDownloadStatus res st).2 = []
      ∨ (handleDownloadStatus res st).2 = [Effect.sendClose] := by
    unfold handleDownloadStatus
    rcases res with size | ds
    · dsimp only
      split
      · exact Or.inr rfl
      · exact Or.inl rfl
    · rcases ds <;>
      · dsimp only
        split
        · exact Or.inr rfl
        · exact Or.inl rfl
  refine ⟨heff, ?_, rfl⟩
  rcases heff with heff | heff <;> rw [heff] <;> rfl

/-- C7: with a fetch that succeeded, `need_update` is true when no record
exists, and for a record whose `last_update` parses to time `T` it is the
strict comparison `T < now - max_age`; when `need_update` is false the
shard's action is `Skipped` (no fetch), and when it is true and the record
holds ETag `E` the fetch carries the header `If-None-Match: E`. -/
theorem c7_conditional_refresh (id maxAge T : Nat) (r : StateRec)
    (baseUrl : String) (e : String)
    (hT : parseDatetime r.last_update = some T) (hetag : r.etag = some e) :
    (check_db_state maxAge (Except.ok none)).1 = true
    ∧ (check_db_state maxAge (Except.ok (some r))).1 = decide (T < maxAge)
    ∧ (maxAge ≤ T →
        scheduleDownload id maxAge (Except.ok (some r)) baseUrl
          = SchedAction.skipped)
    ∧ (T < maxAge →
        scheduleDownload id maxAge (Except.ok (some r)) baseUrl
          = SchedAction.fetch (baseUrl ++ hex5String id) [("If-None-Match", e)]) := by
  have hchk : check_db_state maxAge (Except.ok (some r))
      = (decide (T < maxAge), some e) := by
    unfold check_db_state
    dsimp only
    rw [hT, hetag]
  refine ⟨rfl, by rw [hchk], ?_, ?_⟩
  · intro hle
    unfold scheduleDownload
    rw [hchk]
    simp [Nat.not_lt_of_le hle]
  · intro hlt
    unfold scheduleDownload
    rw [hchk]
    simp [hlt, requestHeaders]

/-- Witness for C7 on a concrete record, with `max_age` cutoffs on both
sides of the parsed timestamp. -/
theorem c7_conditional_refresh_witness :
    (check_db_state 65053076645 (Except.ok none)).1 = true
    ∧ (check_db_state 65053076645
        (Except.ok (some ⟨some "E1", "2024-01-02 03:04:05"⟩))).1
        = decide (65053076645 < 65053076645)
    ∧ (65053076645 ≤ 65053076645 →
        scheduleDownload 0 65053076645
          (Except.ok (some ⟨some "E1", "2024-01-02 03:04:05"⟩)) "u"
          = SchedAction.skipped)
    ∧ (65053076645 < 65053076645 →
        scheduleDownload 0 65053076645
          (Except.ok (some ⟨some "E1", "2024-01-02 03:04:05"⟩)) "u"
          = SchedAction.fetch ("u" ++ hex5String 0) [("If-None-Match", "E1")]) :=
  c7_conditional_refresh 0 65053076645 65053076645
    ⟨some "E1", "2024-01-02 03:04:05"⟩ "u" "E1" (by decide) rfl

/-- C10: `check_db_state` fails open: a state-store fetch error, or a
record whose `last_update` does not parse as `%Y-%m-%d %H:%M:%S`, leaves
`need_update` at its default `true`, so the shard is fetched rather than
skipped. -/
theorem c10_fail_open (maxAge id : Nat) (r : StateRec) (baseUrl : String)
    (hbad : parseDatetime r.last_update = none) :
    (check_db_state maxAge (Except.error ())).1 = true
    ∧ (check_db_state maxAge (Except.ok (some r))).1 = true
    ∧ scheduleDownload id maxAge (Except.error ()) baseUrl
        = SchedAction.fetch (baseUrl ++ hex5String id) []
    ∧ scheduleDownload id maxAge (Except.ok (some r)) baseUrl
        = SchedAction.fetch (baseUrl ++ hex5String id) (requestHeaders r.etag) := by
  have hchk : check_db_state maxAge (Except.ok (some r)) = (true, r.etag) := by
    unfold check_db_state
    dsimp only
    rw [hbad]
  refine ⟨rfl, by rw [hchk], rfl, ?_⟩
  unfold scheduleDownload
  rw [hchk]
  rfl

/-- Witness for C10 on a record whose timestamp is corrupt. -/
theorem c10_fail_open_witness :
    (check_db_state 7 (Except.error ())).1 = true
    ∧ (check_db_state 7 (Except.ok (some ⟨none, "garbage"⟩))).1 = true
    ∧ scheduleDownload 3 7 (Except.error ()) "u"
        = SchedAction.fetch ("u" ++ hex5String 3) []
    ∧ scheduleDownload 3 7 (Except.ok (some ⟨none, "garbage"⟩)) "u"
        = SchedAction.fetch ("u" ++ hex5String 3) (requestHeaders none) :=
  c10_fail_open 7 3 ⟨none, "garbage"⟩ "u" (by decide)

/-! ## Claims C8 and C9: the retry loop -/

/-- Everything `download_retry` guarantees from loop position `i` on, with
`sleeps` the accumulated earlier sleeps: the attempt counter moves forward
but never beyond `max`, the returned value is the outcome of the last
attempt made, every attempt before the last was a retried (non-304,
non-success) failure, an early exit only happens on success or 304, and
the sleeps performed from position `i` on are `500 * 2 ^ j` milliseconds
for consecutive `j`. -/
def retrySpecP (oracle : Nat → Except DLError DLResult) (max i : Nat)
    (sleeps : List Nat) (t : RetryTrace) : Prop :=
  i + 1 ≤ t.attempts ∧ t.attempts ≤ max
  ∧ t.result = oracle (t.attempts - 1)
  ∧ (∀ j, i ≤ j → j + 1 < t.attempts → isStop (oracle j) = false)
  ∧ (t.attempts < max → isStop (oracle (t.attempts - 1)) = true)
  ∧ t.sleepsMs
      = sleeps.reverse
        ++ (List.range' i (t.attempts - 1 - i)).map (fun j => 500 * 2 ^ j)

theorem retryAux_spec (oracle : Nat → Except DLError DLResult) (max : Nat) :
    ∀ (fuel i : Nat), i < max → i + fuel = max → ∀ (sleeps : List Nat),
      retrySpecP oracle max i sleeps
        (retryAux oracle max fuel i (500 * 2 ^ i) sleeps) := by
  intro fuel
  induction fuel with
  | zero =>
    intro i hlt heq sleeps
    omega
  | succ fuel ih =>
    intro i hlt heq sleeps
    unfold retryAux
    by_cases hstop : isStop (oracle i) = true
    · rw [if_pos hstop]
      simp only [retrySpecP]
      refine ⟨by omega, by omega, by simp, ?_, ?_, ?_⟩
      · intro j hij hj
        omega
      · intro _
        simpa using hstop
      · simp [show i + 1 - 1 - i = 0 from by omega, List.range']
    · rw [if_neg hstop]
      by_cases hnext : i + 1 < max
      · rw [if_pos hnext]
        rw [show 500 * 2 ^ i * 2 = 500 * 2 ^ (i + 1) from by ring]
        obtain ⟨a1, a2, a3, a4, a5, a6⟩ :=
          ih (i + 1) hnext (by omega) (500 * 2 ^ i :: sleeps)
        refine ⟨by omega, a2, a3, ?_, a5, ?_⟩
        · intro j hij hj
          rcases Nat.eq_or_lt_of_le hij with rfl | hlt2
          · simpa using hstop
          · exact a4 j hlt2 hj
        · rw [a6]
          rw [show (retryAux oracle max fuel (i + 1) (500 * 2 ^ (i + 1))
                (500 * 2 ^ i :: sleeps)).attempts - 1 - i
              = ((retryAux oracle max fuel (i + 1) (500 * 2 ^ (i + 1))
                (500 * 2 ^ i :: sleeps)).attempts - 1 - (i + 1)) + 1 from by omega]
          rw [List.range'_succ]
          simp
      · rw [if_neg hnext]
        simp only [retrySpecP]
        refine ⟨by omega, by omega, by simp, ?_, ?_, ?_⟩
        · intro j hij hj
          omega
        · intro hcon
          omega
        · simp [show i + 1 - 1 - i = 0 from by omega, List.range']

/-- C8: `download_retry` invokes the download at most `max_retries` times;
the value returned is the outcome of the last attempt actually made, every
attempt before it failed with a non-304 error (success and 304 return
immediately), stopping before exhausting `max_retries` happens only on
success or 304 (so a final non-304 failure is returned only after all
attempts), and the sleeps between attempts are 500 ms doubling each
retry. -/
theorem c8_download_retry (oracle : Nat → Except DLError DLResult)
    (max : Nat) (hmax : 0 < max) :
    0 < (downloadRetry oracle max).attempts
    ∧ (downloadRetry oracle max).attempts ≤ max
    ∧ (downloadRetry oracle max).result
        = oracle ((downloadRetry oracle max).attempts - 1)
    ∧ (∀ j, j + 1 < (downloadRetry oracle max).attempts →
        isStop (oracle j) = false)
    ∧ ((downloadRetry oracle max).attempts < max →
        isStop (oracle ((downloadRetry oracle max).attempts - 1)) = true)
    ∧ (downloadRetry oracle max).sleepsMs
        = (List.range ((downloadRetry oracle max).attempts - 1)).map
            (fun j => 500 * 2 ^ j) := by
  have h := retryAux_spec oracle max max 0 hmax (by omega) []
  rw [show (500 : Nat) * 2 ^ 0 = 500 from by norm_num] at h
  obtain ⟨a1, a2, a3, a4, a5, a6⟩ := h
  exact ⟨by simpa [downloadRetry] using a1, a2, a3,
    fun j hj => a4 j (Nat.zero_le j) hj, a5,
    by simpa [downloadRetry, List.range_eq_range'] using a6⟩

/-- Witness for C8: three allowed attempts, the first fails with HTTP 500,
the second succeeds. -/
theorem c8_download_retry_witness :
    0 < (downloadRetry
        (fun i => if i = 0 then Except.error ⟨some 500⟩ else Except.ok ⟨[], none⟩)
        3).attempts
    ∧ (downloadRetry
        (fun i => if i = 0 then Except.error ⟨some 500⟩ else Except.ok ⟨[], none⟩)
        3).attempts ≤ 3
    ∧ (downloadRetry
        (fun i => if i = 0 then Except.error ⟨some 500⟩ else Except.ok ⟨[], none⟩)
        3).result
        = (fun i => if i = 0 then Except.error ⟨some 500⟩ else Except.ok ⟨[], none⟩)
            ((downloadRetry
              (fun i => if i = 0 then Except.error ⟨some 500⟩ else Except.ok ⟨[], none⟩)
              3).attempts - 1)
    ∧ (∀ j, j + 1 < (downloadRetry
          (fun i => if i = 0 then Except.error ⟨some 500⟩ else Except.ok ⟨[], none⟩)
          3).attempts →
        isStop ((fun i => if i = 0 then Except.error ⟨some 500⟩ else Except.ok ⟨[], none⟩) j)
          = false)
    ∧ ((downloadRetry
          (fun i => if i = 0 then Except.error ⟨some 500⟩ else Except.ok ⟨[], none⟩)
          3).attempts < 3 →
        isStop ((fun i => if i = 0 then Except.error ⟨some 500⟩ else Except.ok ⟨[], none⟩)
            ((downloadRetry
              (fun i => if i = 0 then Except.error ⟨some 500⟩ else Except.ok ⟨[], none⟩)
              3).attempts - 1)) = true)
    ∧ (downloadRetry
        (fun i => if i = 0 then Except.error ⟨some 500⟩ else Except.ok ⟨[], none⟩)
        3).sleepsMs
        = (List.range ((downloadRetry
            (fun i => if i = 0 then Except.error ⟨some 500⟩ else Except.ok ⟨[], none⟩)
            3).attempts - 1)).map (fun j => 500 * 2 ^ j) :=
  c8_download_retry
    (fun i => if i = 0 then Except.error ⟨some 500⟩ else Except.ok ⟨[], none⟩)
    3 (by decide)

/-- C9: with `max_retries = 0` the loop body never runs: no download
attempt is made and the initial `Err(DownloadError { status_code: None })`
(a connection error) is returned. -/
theorem c9_zero_retries (oracle : Nat → Except DLError DLResult) :
    downloadRetry oracle 0 = ⟨Except.error ⟨none⟩, 0, []⟩ := rfl

end IPwned
